import Mathlib

/-
Verification of the Buckz-Journal trade-import engine.

The engine has three drivers:
  * the free-text (PDF) driver `parseTextToTrades` with its token classifier
    `parseDelimitedLine` (src/app/api/parse-pdf/route.ts),
  * the CSV driver `parseCsvTrades` (csv parser module),
  * the Excel driver `parseExcelTrades` (excel parser module).

The embedding below translates those functions directly.  JavaScript numbers
are modelled as `JNum` (either NaN or an exact rational); decimal strings such
as "120.50" parse exactly, so the magnitude comparisons the code performs
(`> 1000`, `< 1000`, `> 0`, truthiness) agree with the JS semantics on every
input the parsers accept.  `Infinity` results of `parseFloat` are not modelled
(the tokens the parsers feed to it never produce one).  JS string primitives
(`split`, `trim`, `toLowerCase`, `includes`, the regular expressions used by
the source) are modelled by executable functions over the character list.
-/

/-- A JavaScript number as produced by `parseFloat`: NaN or an exact rational. -/
inductive JNum where
  | nan : JNum
  | num : ℚ → JNum
deriving DecidableEq, Repr

/-- Trade direction, the two values of the TS union type `'call' | 'put'`. -/
inductive Direction where
  | call : Direction
  | put : Direction
deriving DecidableEq, Repr

/-- `Partial<ParsedTradeData>`: every field of the canonical record, optional.
`none` is JS `undefined`.  Emitted records are these partials asserted complete
(the TS code casts the partial object, leaving absent fields `undefined`). -/
structure PartialTrade where
  direction : Option Direction := none
  orderNumber : Option String := none
  expiryTime : Option String := none
  asset : Option String := none
  openTime : Option String := none
  closeTime : Option String := none
  openPrice : Option JNum := none
  closePrice : Option JNum := none
  tradeAmount : Option JNum := none
  profitAmount : Option JNum := none
  currency : Option String := none
deriving DecidableEq, Repr

/-- JS truthiness of an optional string field: `undefined` and `""` are falsy. -/
def strTruthy : Option String → Bool
  | none => false
  | some s => s ≠ ""

/-- JS truthiness of an optional numeric field: `undefined`, `NaN` and `0` are falsy. -/
def numTruthy : Option JNum → Bool
  | none => false
  | some JNum.nan => false
  | some (JNum.num q) => q ≠ 0

/-- `isTradeComplete`, textually identical in all three source parsers:
direction truthy, asset truthy, tradeAmount truthy, profitAmount not undefined. -/
def isTradeComplete (t : PartialTrade) : Bool :=
  t.direction.isSome && strTruthy t.asset && numTruthy t.tradeAmount && t.profitAmount.isSome

/-- The shared emission ternary `isTradeComplete(trade) ? trade : null` that
each extractor ends with. -/
def emitIfComplete (t : PartialTrade) : Option PartialTrade :=
  if isTradeComplete t then some t else none

/-- The JS `\s` class restricted to the characters these inputs can contain. -/
def jsWS (c : Char) : Bool :=
  c = ' ' || c = '\t' || c = '\n' || c = '\r' || c = '\x0b' || c = '\x0c'

/-- Line-terminator characters, which the JS `.` pattern never matches. -/
def jsTerm (c : Char) : Bool := c = '\n' || c = '\r'

/-- ASCII lower-casing of one character, as `toLowerCase` acts on these inputs. -/
def charLower (c : Char) : Char :=
  if 'A' ≤ c && c ≤ 'Z' then Char.ofNat (c.toNat + 32) else c

/-- ASCII upper-casing of one character, as `toUpperCase` acts on these inputs. -/
def charUpper (c : Char) : Char :=
  if 'a' ≤ c && c ≤ 'z' then Char.ofNat (c.toNat - 32) else c

/-- JS `String.prototype.toLowerCase` (ASCII fragment). -/
def jsLower (s : String) : String := ⟨s.data.map charLower⟩

/-- JS `String.prototype.toUpperCase` (ASCII fragment). -/
def jsUpper (s : String) : String := ⟨s.data.map charUpper⟩

/-- JS `String.prototype.trim`. -/
def jsTrim (s : String) : String :=
  ⟨((s.data.dropWhile jsWS).reverse.dropWhile jsWS).reverse⟩

/-- Helper for `jsSplit`: accumulates the current (reversed) field. -/
def splitCharAux (sep : Char) : List Char → List Char → List String
  | [], cur => [⟨cur.reverse⟩]
  | c :: rest, cur =>
    if c = sep then ⟨cur.reverse⟩ :: splitCharAux sep rest []
    else splitCharAux sep rest (c :: cur)

/-- JS `String.prototype.split` with a one-character separator. -/
def jsSplit (s : String) (sep : Char) : List String := splitCharAux sep s.data []

/-- JS `String.prototype.includes` (substring containment). -/
def strContains (hay needle : String) : Bool :=
  hay.data.tails.any (fun t => needle.data.isPrefixOf t)

/-- JS `value || dflt` on strings: the empty string falls back to the default. -/
def jsOr (v dflt : String) : String := if v = "" then dflt else v

/-- `String.prototype.replace(c, '')` with a plain one-character pattern:
remove the first occurrence only. -/
def stripFirst (c : Char) : List Char → List Char
  | [] => []
  | x :: xs => if x = c then xs else x :: stripFirst c xs

/-- Digit run to a natural number. -/
def natOfDigits (cs : List Char) : ℕ :=
  cs.foldl (fun a c => 10 * a + (c.toNat - 48)) 0

/-- JS `parseFloat`: skip leading whitespace, optional sign, then the longest
decimal-literal prefix `digits [. digits] [e [sign] digits]`; NaN when no
digits are found.  (`Infinity` is not modelled; see the header comment.) -/
def jsParseFloat (s : String) : JNum :=
  let cs := s.data.dropWhile jsWS
  let sign : Bool × List Char :=
    match cs with
    | '-' :: t => (true, t)
    | '+' :: t => (false, t)
    | _ => (false, cs)
  let ip := sign.2.takeWhile Char.isDigit
  let cs1 := sign.2.dropWhile Char.isDigit
  let frac : List Char × List Char :=
    match cs1 with
    | '.' :: t => (t.takeWhile Char.isDigit, t.dropWhile Char.isDigit)
    | _ => ([], cs1)
  if ip.isEmpty && frac.1.isEmpty then JNum.nan
  else
    let e : ℤ :=
      match frac.2 with
      | c :: t =>
        if c = 'e' || c = 'E' then
          let es : ℤ × List Char :=
            match t with
            | '-' :: u => (-1, u)
            | '+' :: u => (1, u)
            | _ => (1, t)
          let ed := es.2.takeWhile Char.isDigit
          if ed.isEmpty then 0 else es.1 * (natOfDigits ed : ℤ)
        else 0
      | [] => 0
    let n : ℤ := if sign.1 then -(natOfDigits (ip ++ frac.1) : ℤ) else (natOfDigits (ip ++ frac.1) : ℤ)
    JNum.num (mkRat (n * (10 : ℤ) ^ e.toNat) ((10 : ℕ) ^ (frac.1.length + (-e).toNat)))

namespace Pdf

/-- The regex `/^#?\d+$/` from the order-number branch of `parseDelimitedLine`. -/
def orderRe (s : String) : Bool :=
  let cs := match s.data with
    | '#' :: t => t
    | cs => cs
  !cs.isEmpty && cs.all Char.isDigit

/-- One ASCII uppercase letter. -/
def upAZ (c : Char) : Bool := 'A' ≤ c && c ≤ 'Z'

/-- The regex `/^[A-Z]+\/?[A-Z]*$/` from the asset branch of `parseDelimitedLine`. -/
def assetRe (s : String) : Bool :=
  let u1 := s.data.takeWhile upAZ
  let r1 := s.data.dropWhile upAZ
  !u1.isEmpty &&
    (match r1 with
     | [] => true
     | '/' :: r2 => r2.all upAZ
     | _ => false)

/-- The regex `/^(usd|eur|gbp|jpy|aud|cad|chf)$/i` from the currency branch. -/
def currencyRe (s : String) : Bool :=
  ["usd", "eur", "gbp", "jpy", "aud", "cad", "chf"].contains (jsLower s)

/-- The regex `/^\$?\d+\.?\d*%?$/` from the numeric branch of `parseDelimitedLine`. -/
def numericRe (s : String) : Bool :=
  let cs := match s.data with
    | '$' :: t => t
    | cs => cs
  let ip := cs.takeWhile Char.isDigit
  let cs1 := cs.dropWhile Char.isDigit
  if ip.isEmpty then false
  else
    let cs2 := match cs1 with
      | '.' :: t => t.dropWhile Char.isDigit
      | _ => cs1
    match cs2 with
    | [] => true
    | ['%'] => true
    | _ => false

/-- A `:` or `/` separator inside the time regex. -/
def tsSep (c : Char) : Bool := c = ':' || c = '/'

/-- Prefix match for `\d[:/]\d{2}` (the one-digit-hour alternative). -/
def tm1 : List Char → Bool
  | a :: b :: c :: d :: _ => a.isDigit && tsSep b && c.isDigit && d.isDigit
  | _ => false

/-- Prefix match for `\d{2}[:/]\d{2}` (the two-digit-hour alternative). -/
def tm2 : List Char → Bool
  | a :: b :: c :: d :: e :: _ => a.isDigit && b.isDigit && tsSep c && d.isDigit && e.isDigit
  | _ => false

/-- The unanchored regex `/\d{1,2}[:/]\d{2}/` from the date/time branch. -/
def timeRe (s : String) : Bool := s.data.tails.any (fun t => tm1 t || tm2 t)

/-- Prefix match for `\d{4}-\d{2}-\d{2}`. -/
def dm : List Char → Bool
  | a :: b :: c :: d :: s1 :: e :: f :: s2 :: g :: h :: _ =>
    a.isDigit && b.isDigit && c.isDigit && d.isDigit && s1 = '-' &&
      e.isDigit && f.isDigit && s2 = '-' && g.isDigit && h.isDigit
  | _ => false

/-- The unanchored regex `/\d{4}-\d{2}-\d{2}/` from the date/time branch. -/
def dateRe (s : String) : Bool := s.data.tails.any dm

/-- `parseCurrency` from route.ts: remove every `$` and `,`, remove the first
`%`, then `parseFloat`. -/
def parseCurrency (s : String) : JNum :=
  jsParseFloat ⟨stripFirst '%' (s.data.filter (fun c => c ≠ '$' && c ≠ ','))⟩

/-- The numeric-disambiguation block of `parseDelimitedLine` (route.ts lines
60-72): `%` with falsy profitAmount, else `> 1000` with falsy tradeAmount,
else `0 < n < 1000` filling openPrice then closePrice.  `hasPct` is
`value.includes('%')` and `n` is `parseCurrency(values[i])`.  NaN compares
false against every bound, exactly as in JS. -/
def numericAssign (t : PartialTrade) (hasPct : Bool) (n : JNum) : PartialTrade :=
  let gt : JNum → ℚ → Bool := fun m q => match m with
    | JNum.nan => false
    | JNum.num x => x > q
  let lt : JNum → ℚ → Bool := fun m q => match m with
    | JNum.nan => false
    | JNum.num x => x < q
  if hasPct && !numTruthy t.profitAmount then { t with profitAmount := some n }
  else if gt n 1000 && !numTruthy t.tradeAmount then { t with tradeAmount := some n }
  else if lt n 1000 && gt n 0 && !numTruthy t.openPrice then { t with openPrice := some n }
  else if lt n 1000 && gt n 0 && !numTruthy t.closePrice then { t with closePrice := some n }
  else t

/-- The date/time branch of `parseDelimitedLine` (route.ts lines 74-82):
fill openTime, then closeTime, then expiryTime. -/
def timeAssign (t : PartialTrade) (tok : String) : PartialTrade :=
  if !strTruthy t.openTime then { t with openTime := some tok }
  else if !strTruthy t.closeTime then { t with closeTime := some tok }
  else if !strTruthy t.expiryTime then { t with expiryTime := some tok }
  else t

/-- The loop body of `parseDelimitedLine` for one token `tok` (= `values[i]`);
`value` is its lower-casing.  The branch order and guards follow route.ts
lines 40-83: direction (no unset guard), order number, asset, currency,
numeric, date/time. -/
def processToken (t : PartialTrade) (tok : String) : PartialTrade :=
  let value := jsLower tok
  if value = "call" then { t with direction := some Direction.call }
  else if value = "put" then { t with direction := some Direction.put }
  else if orderRe value && !strTruthy t.orderNumber then { t with orderNumber := some tok }
  else if assetRe tok && !strTruthy t.asset then { t with asset := some tok }
  else if currencyRe value then { t with currency := some (jsUpper value) }
  else if numericRe tok then numericAssign t (strContains value "%") (parseCurrency tok)
  else if timeRe tok || dateRe tok then timeAssign t tok
  else t

/-- `parseDelimitedLine`: classify every token into a fresh partial, default
direction to call and currency to USD, then emit only if complete. -/
def parseDelimitedLine (values : List String) : Option PartialTrade :=
  let t := values.foldl processToken {}
  let t := if t.direction.isSome then t else { t with direction := some Direction.call }
  let t := if strTruthy t.currency then t else { t with currency := some "USD" }
  emitIfComplete t

/-- Split a raw line on a separator, trim each token, drop empties
(`line.split(sep).map(s => s.trim()).filter(s => s)`). -/
def splitTokens (line : String) (sep : Char) : List String :=
  ((jsSplit line sep).map jsTrim).filter (fun s => s ≠ "")

/-- The state the free-text driver threads through its line loop: the emitted
records so far and the key-value accumulator `currentTrade`. -/
structure TextState where
  trades : List PartialTrade := []
  currentTrade : Option PartialTrade := none
deriving DecidableEq, Repr

/-- The regex match `line.match(/^([^:]+):\s*(.+)$/)`: key = the (nonempty)
text before the first colon, value = the rest with its leading whitespace
stripped.  `.` never matches a line terminator, and when everything after the
colon is whitespace the greedy `\s*` backtracks one character. -/
def kvMatch (line : String) : Option (String × String) :=
  let cs := line.data
  match cs.dropWhile (fun c => c ≠ ':') with
  | [] => none
  | _ :: r =>
    let key := cs.takeWhile (fun c => c ≠ ':')
    if key.isEmpty then none
    else
      let v := r.dropWhile jsWS
      if v.isEmpty then
        match r.getLast? with
        | some c => if jsTerm c then none else some (⟨key⟩, ⟨[c]⟩)
        | none => none
      else if v.any jsTerm then none
      else some (⟨key⟩, ⟨v⟩)

/-- The key-value write of route.ts lines 119-141: normalize the key, then the
first synonym-containment test that fires writes the field. -/
def kvAssign (t : PartialTrade) (key value : String) : PartialTrade :=
  let k := jsTrim (jsLower key)
  if strContains k "order" || strContains k "order #" then
    { t with orderNumber := some value }
  else if strContains k "asset" || strContains k "symbol" then
    { t with asset := some (jsUpper value) }
  else if strContains k "call" || strContains k "put" then
    let d := if strContains (jsLower value) "call" then Direction.call else Direction.put
    { t with direction := some d }
  else if strContains k "amount" || strContains k "investment" then
    { t with tradeAmount := some (parseCurrency value) }
  else if strContains k "profit" || strContains k "payout" || strContains k "p/l" then
    { t with profitAmount := some (parseCurrency value) }
  else if strContains k "open price" then
    { t with openPrice := some (jsParseFloat ⟨value.data.filter (fun c => c.isDigit || c = '.')⟩) }
  else if strContains k "close price" then
    { t with closePrice := some (jsParseFloat ⟨value.data.filter (fun c => c.isDigit || c = '.')⟩) }
  else if strContains k "open time" then { t with openTime := some value }
  else if strContains k "close time" then { t with closeTime := some value }
  else if strContains k "expir" then { t with expiryTime := some value }
  else if strContains k "currency" then { t with currency := some value }
  else t

/-- Pattern 1 of the line loop: the pipe attempt emits a record exactly when
the line splits into at least ten pipe tokens that classify completely. -/
def pipeAttempt (line : String) : Option PartialTrade :=
  let pipeDelimited := splitTokens line '|'
  if pipeDelimited.length ≥ 10 then parseDelimitedLine pipeDelimited else none

/-- Pattern 2 of the line loop: on a key-value match, write into the running
accumulator (creating one if absent) and flush it as soon as it is complete. -/
def kvStep (st : TextState) (line : String) : TextState :=
  match kvMatch line with
  | none => st
  | some kv =>
    let t := kvAssign (st.currentTrade.getD {}) kv.1 kv.2
    if isTradeComplete t then { trades := st.trades ++ [t], currentTrade := none }
    else { trades := st.trades, currentTrade := some t }

/-- Pattern 3 of the line loop: at least eight comma tokens that classify
completely emit a record. -/
def commaStep (st : TextState) (line : String) : TextState :=
  let csvDelimited := splitTokens line ','
  if csvDelimited.length ≥ 8 then
    match parseDelimitedLine csvDelimited with
    | some t => { st with trades := st.trades ++ [t] }
    | none => st
  else st

/-- One iteration of the line loop of `parseTextToTrades`.  A successful pipe
emission executes `continue`, skipping the key-value and comma attempts;
otherwise both run, the comma attempt even when the key-value attempt flushed. -/
def lineStep (st : TextState) (line : String) : TextState :=
  match pipeAttempt line with
  | some t => { st with trades := st.trades ++ [t] }
  | none => commaStep (kvStep st line) line

/-- The nonblank lines of the decoded text:
`text.split('\n').filter(line => line.trim())`. -/
def textLines (text : String) : List String :=
  (jsSplit text '\n').filter (fun l => jsTrim l ≠ "")

/-- The epilogue after the line loop: a leftover complete accumulator is
flushed (the guard also discards an incomplete one). -/
def finishText (st : TextState) : List PartialTrade :=
  match st.currentTrade with
  | some t => if isTradeComplete t then st.trades ++ [t] else st.trades
  | none => st.trades

/-- `parseTextToTrades`: run the line loop over the nonblank lines from the
empty state, then apply the epilogue. -/
def parseTextToTrades (text : String) : List PartialTrade :=
  finishText ((textLines text).foldl lineStep {})

/-- Modelled from the spec: spec section 4.4 says all three line-shape
attempts run on every line regardless of earlier success.  This variant omits
the `continue` after a successful pipe emission and is used only as the
comparison point for that refinement claim; `lineStep` above is the code. -/
def lineStepAllThree (st : TextState) (line : String) : TextState :=
  let st0 := match pipeAttempt line with
    | some t => { st with trades := st.trades ++ [t] }
    | none => st
  commaStep (kvStep st0 line) line

/-- Modelled from the spec: the driver induced by `lineStepAllThree`. -/
def parseTextToTradesAllThree (text : String) : List PartialTrade :=
  finishText ((textLines text).foldl lineStepAllThree {})

end Pdf

/-- The shared column alias table `COLUMN_MAP`, textually identical in the CSV
and Excel parser modules; the entry order is the object-literal order. -/
def COLUMN_MAP : List (String × List String) :=
  [("direction", ["call/put", "direction", "type", "trade type", "option type", "side"]),
   ("orderNumber", ["order #", "order number", "order id", "order", "id", "ticket"]),
   ("expiryTime", ["expiry", "expiry time", "expiration", "exp", "expiration time"]),
   ("asset", ["asset", "symbol", "stock", "ticker", "instrument", "pair"]),
   ("openTime", ["open time", "entry time", "start time", "open date", "entry date"]),
   ("closeTime", ["close time", "exit time", "end time", "close date", "exit date"]),
   ("openPrice", ["open price", "entry price", "strike price", "open"]),
   ("closePrice", ["close price", "exit price", "close"]),
   ("tradeAmount", ["amount", "trade amount", "investment", "stake", "trade size"]),
   ("profitAmount", ["profit", "p/l", "payout", "profit/loss", "return"]),
   ("currency", ["currency", "ccy", "pair currency"])]

/-- `parseDirection`, textually identical in the CSV and Excel parser modules:
case-insensitive substring containment, defaulting to call. -/
def parseDirection (value : String) : Direction :=
  let normalized := jsTrim (jsLower value)
  if strContains normalized "call" || strContains normalized "buy" ||
      strContains normalized "long" then Direction.call
  else if strContains normalized "put" || strContains normalized "sell" ||
      strContains normalized "short" then Direction.put
  else Direction.call

/-- The default block (`if (!trade.X) trade.X = dflt`) that both tabular row
extractors run, textually identical in the CSV and Excel source modules,
before testing completeness. -/
def applyDefaults (t : PartialTrade) : PartialTrade :=
  let t := if t.direction.isSome then t else { t with direction := some Direction.call }
  let t := if strTruthy t.currency then t else { t with currency := some "USD" }
  let t := if strTruthy t.orderNumber then t else { t with orderNumber := some "" }
  let t := if strTruthy t.expiryTime then t else { t with expiryTime := some "" }
  let t := if strTruthy t.openTime then t else { t with openTime := some "" }
  let t := if strTruthy t.closeTime then t else { t with closeTime := some "" }
  let t := if numTruthy t.openPrice then t else { t with openPrice := some (JNum.num 0) }
  if numTruthy t.closePrice then t else { t with closePrice := some (JNum.num 0) }

namespace Csv

/-- Helper for `parseCSVLine`: walk the characters with the in-quotes flag,
accumulating the current (reversed) field; a `"` toggles the flag and is
dropped, a comma outside quotes ends the field, everything else is kept. -/
def csvLineAux : List Char → Bool → List Char → List String
  | [], _, cur => [jsTrim ⟨cur.reverse⟩]
  | c :: rest, inQuotes, cur =>
    if c = '"' then csvLineAux rest (!inQuotes) cur
    else if c = ',' && !inQuotes then jsTrim ⟨cur.reverse⟩ :: csvLineAux rest inQuotes []
    else csvLineAux rest inQuotes (c :: cur)

/-- `parseCSVLine`: split one CSV line into trimmed fields, honoring quotes. -/
def parseCSVLine (line : String) : List String := csvLineAux line.data false []

/-- `mapColumnIndices`: for each canonical field, the index of the first header
matching the first alias that occurs (exact match after lower-casing and
trimming); unmatched fields are absent from the association list. -/
def mapColumnIndices (headers : List String) : List (String × ℕ) :=
  let normalizedHeaders := headers.map (fun h => jsTrim (jsLower h))
  COLUMN_MAP.filterMap (fun fieldNames =>
    (fieldNames.2.findSome? (fun name => normalizedHeaders.findIdx? (fun h => h = jsLower name))).map
      (fun i => (fieldNames.1, i)))

/-- The strip pipeline inside the CSV module's `parseNumber`: `(value || '0')`
with every `$` and `,` and the first `%` removed, then trimmed.  Named so that
theorems can speak about the string `parseFloat` receives. -/
def strippedNumeric (value : String) : String :=
  jsTrim ⟨stripFirst '%' ((jsOr value "0").data.filter (fun c => c ≠ '$' && c ≠ ','))⟩

/-- `parseNumber` of the CSV module: `parseFloat` of the stripped string, with
`|| 0` degrading NaN to `0`.  It is total: no input raises. -/
def parseNumber (value : String) : ℚ :=
  match jsParseFloat (strippedNumeric value) with
  | JNum.nan => 0
  | JNum.num q => q

/-- A cell of a CSV row by mapped column index; an index past the end of the
row reads as the empty string (JS `undefined`, which every use site then
passes through a `|| fallback` or a coercer that treats it like `''`). -/
def cellAt (values : List String) (i : ℕ) : String := values.getD i ""

/-- The eleven guarded extractions of `parseCSVRow`, in source order: each
mapped field's cell is pulled through its coercer and written. -/
def extractFields (values : List String) (columnIndices : List (String × ℕ)) :
    PartialTrade :=
  let look := fun (field : String) => (columnIndices.lookup field).map (cellAt values)
  let setS := fun (t : PartialTrade) (field : String)
      (write : PartialTrade → String → PartialTrade) =>
    match look field with
    | some v => write t v
    | none => t
  let t := setS {} "direction" (fun t v => { t with direction := some (parseDirection v) })
  let t := setS t "orderNumber" (fun t v => { t with orderNumber := some (jsOr v "") })
  let t := setS t "expiryTime" (fun t v => { t with expiryTime := some (jsOr v "") })
  let t := setS t "asset" (fun t v => { t with asset := some (jsUpper (jsOr v "")) })
  let t := setS t "openTime" (fun t v => { t with openTime := some (jsOr v "") })
  let t := setS t "closeTime" (fun t v => { t with closeTime := some (jsOr v "") })
  let t := setS t "openPrice" (fun t v => { t with openPrice := some (JNum.num (parseNumber v)) })
  let t := setS t "closePrice" (fun t v => { t with closePrice := some (JNum.num (parseNumber v)) })
  let t := setS t "tradeAmount" (fun t v => { t with tradeAmount := some (JNum.num (parseNumber v)) })
  let t := setS t "profitAmount" (fun t v => { t with profitAmount := some (JNum.num (parseNumber v)) })
  setS t "currency" (fun t v => { t with currency := some (jsUpper (jsOr v "USD")) })

/-- `parseCSVRow`: pull each mapped field through its coercer, apply the
defaults, and emit only if complete.  Assignment order follows the source. -/
def parseCSVRow (values : List String) (columnIndices : List (String × ℕ)) :
    Option PartialTrade :=
  emitIfComplete (applyDefaults (extractFields values columnIndices))

/-- The nonblank lines of the CSV text, the first of which is the header. -/
def csvLines (csvText : String) : List String :=
  (jsSplit csvText '\n').filter (fun l => jsTrim l ≠ "")

/-- One iteration of the data-row loop: rows with fewer parsed fields than the
header are skipped whole (`continue`), others go through `parseCSVRow`. -/
def rowStep (header : List String) (columnIndices : List (String × ℕ)) (line : String) :
    Option PartialTrade :=
  let values := parseCSVLine line
  if values.length < header.length then none
  else parseCSVRow values columnIndices

/-- `parseCsvTrades`: resolve the header once, then run every data line
through `rowStep`, keeping emissions in row order. -/
def parseCsvTrades (csvText : String) : List PartialTrade :=
  match csvLines csvText with
  | [] => []
  | hd :: rest =>
    let header := parseCSVLine hd
    rest.filterMap (rowStep header (mapColumnIndices header))

end Csv

namespace Excel

/-- A decoded spreadsheet row: the ordered key-value pairs produced by the
(black-box) workbook decoder, `none` standing for a null cell. -/
def Row := List (String × Option String)

/-- `mapColumns`: for each canonical field, every original-cased row key whose
lower-cased trimmed form equals an alias, collected in alias order. -/
def mapColumns (row : Row) : List (String × List String) :=
  COLUMN_MAP.map (fun fieldNames =>
    (fieldNames.1, fieldNames.2.filterMap (fun name =>
      (row.map Prod.fst).find? (fun col => jsTrim (jsLower col) = jsLower name))))

/-- `parseNumber` of the Excel module: stringify, strip every `$` and `,` and
the first `%`, trim, `parseFloat`, `|| 0`.  (The `typeof value === 'number'`
fast path never fires here: the decoder is invoked with `raw: false`, so every
non-null cell is already a string.) -/
def parseNumber (value : String) : ℚ :=
  let str := jsTrim ⟨stripFirst '%' (value.data.filter (fun c => c ≠ '$' && c ≠ ','))⟩
  match jsParseFloat str with
  | JNum.nan => 0
  | JNum.num q => q

/-- The switch of `parseExcelRow`, writing one found value into the field the
mapping entry names. -/
def assignField (t : PartialTrade) (field : String) (v : String) : PartialTrade :=
  if field = "direction" then { t with direction := some (parseDirection v) }
  else if field = "orderNumber" then { t with orderNumber := some v }
  else if field = "expiryTime" then { t with expiryTime := some v }
  else if field = "asset" then { t with asset := some (jsUpper v) }
  else if field = "openTime" then { t with openTime := some v }
  else if field = "closeTime" then { t with closeTime := some v }
  else if field = "openPrice" then { t with openPrice := some (JNum.num (parseNumber v)) }
  else if field = "closePrice" then { t with closePrice := some (JNum.num (parseNumber v)) }
  else if field = "tradeAmount" then { t with tradeAmount := some (JNum.num (parseNumber v)) }
  else if field = "profitAmount" then { t with profitAmount := some (JNum.num (parseNumber v)) }
  else if field = "currency" then { t with currency := some (jsUpper v) }
  else t

/-- The inner key loop of `parseExcelRow`: the first candidate key holding a
non-null, non-empty value on this row. -/
def pickValue (row : Row) (keys : List String) : Option String :=
  keys.findSome? (fun key =>
    match row.lookup key with
    | some (some v) => if v = "" then none else some v
    | _ => none)

/-- `parseExcelRow`: resolve the mapping for this row, write each field's
first present candidate value, apply the defaults, and emit only if complete. -/
def parseExcelRow (row : Row) : Option PartialTrade :=
  let columnMapping := mapColumns row
  let t := applyDefaults (columnMapping.foldl (fun t fieldKeys =>
    match pickValue row fieldKeys.2 with
    | some v => assignField t fieldKeys.1 v
    | none => t) {})
  emitIfComplete t

/-- `parseExcelTrades`: iterate every sheet and every row, appending emissions
in sheet-then-row order.  The input is the decoded workbook: one row list per
sheet, in sheet-name order. -/
def parseExcelTrades (sheets : List (List Row)) : List PartialTrade :=
  sheets.foldl (fun trades rows => trades ++ rows.filterMap parseExcelRow) []

end Excel

section RunRelationDefs

/-- The free-text driver's line loop as a step relation on its threaded state:
consume one line with `lineStep`, and at end of input apply the epilogue.  Two
derivations over the same lines from the same state are two runs of the
driver. -/
inductive TextRun : List String → Pdf.TextState → List PartialTrade → Prop where
  | done (st : Pdf.TextState) : TextRun [] st (Pdf.finishText st)
  | step (line : String) (rest : List String) (st : Pdf.TextState)
      (out : List PartialTrade) :
      TextRun rest (Pdf.lineStep st line) out → TextRun (line :: rest) st out

/-- The CSV driver's data-row loop as a relation: short rows are skipped,
other rows either emit their extracted record or are dropped as incomplete. -/
inductive CsvRowsRun (header : List String) (idx : List (String × ℕ)) :
    List String → List PartialTrade → Prop where
  | nil : CsvRowsRun header idx [] []
  | skip (line : String) (rest : List String) (out : List PartialTrade) :
      (Csv.parseCSVLine line).length < header.length →
      CsvRowsRun header idx rest out → CsvRowsRun header idx (line :: rest) out
  | emit (line : String) (rest : List String) (t : PartialTrade) (out : List PartialTrade) :
      ¬ (Csv.parseCSVLine line).length < header.length →
      Csv.parseCSVRow (Csv.parseCSVLine line) idx = some t →
      CsvRowsRun header idx rest out → CsvRowsRun header idx (line :: rest) (t :: out)
  | drop (line : String) (rest : List String) (out : List PartialTrade) :
      ¬ (Csv.parseCSVLine line).length < header.length →
      Csv.parseCSVRow (Csv.parseCSVLine line) idx = none →
      CsvRowsRun header idx rest out → CsvRowsRun header idx (line :: rest) out

/-- The Excel driver's row loop over one sheet as a relation. -/
inductive ExcelRowsRun : List Excel.Row → List PartialTrade → Prop where
  | nil : ExcelRowsRun [] []
  | emit (row : Excel.Row) (rest : List Excel.Row) (t : PartialTrade)
      (out : List PartialTrade) :
      Excel.parseExcelRow row = some t →
      ExcelRowsRun rest out → ExcelRowsRun (row :: rest) (t :: out)
  | drop (row : Excel.Row) (rest : List Excel.Row) (out : List PartialTrade) :
      Excel.parseExcelRow row = none →
      ExcelRowsRun rest out → ExcelRowsRun (row :: rest) out

/-- The Excel driver's sheet loop as a relation: each sheet contributes its
rows' output, appended in sheet order. -/
inductive ExcelSheetsRun : List (List Excel.Row) → List PartialTrade → Prop where
  | nil : ExcelSheetsRun [] []
  | sheet (rows : List Excel.Row) (rest : List (List Excel.Row))
      (out1 out2 : List PartialTrade) :
      ExcelRowsRun rows out1 → ExcelSheetsRun rest out2 →
      ExcelSheetsRun (rows :: rest) (out1 ++ out2)

end RunRelationDefs

section CompletenessLemmas

/-- An emission from the shared ternary always satisfies the completeness
predicate. -/
theorem emitIfComplete_sound {t u : PartialTrade} (h : emitIfComplete t = some u) :
    isTradeComplete u = true := by
  unfold emitIfComplete at h
  split at h
  · cases h
    assumption
  · cases h

/-- A complete record has a truthy tradeAmount, hence never the value `0`. -/
theorem complete_amount_nonzero {t : PartialTrade} (h : isTradeComplete t = true) :
    t.tradeAmount ≠ some (JNum.num 0) := by
  intro heq
  unfold isTradeComplete at h
  simp only [Bool.and_eq_true] at h
  rw [heq] at h
  simp [numTruthy] at h

/-- Every record returned by the token classifier is complete. -/
theorem parseDelimitedLine_sound {vs : List String} {t : PartialTrade}
    (h : Pdf.parseDelimitedLine vs = some t) : isTradeComplete t = true := by
  unfold Pdf.parseDelimitedLine at h
  exact emitIfComplete_sound h

/-- A record emitted by the pipe attempt is complete. -/
theorem pipeAttempt_sound {line : String} {t : PartialTrade}
    (h : Pdf.pipeAttempt line = some t) : isTradeComplete t = true := by
  unfold Pdf.pipeAttempt at h
  dsimp only at h
  split at h
  · exact parseDelimitedLine_sound h
  · cases h

/-- The key-value attempt only adds complete records to the output. -/
theorem kvStep_sound {st : Pdf.TextState} {line : String} {t : PartialTrade}
    (h : t ∈ (Pdf.kvStep st line).trades) : t ∈ st.trades ∨ isTradeComplete t = true := by
  unfold Pdf.kvStep at h
  split at h
  · exact Or.inl h
  · dsimp only at h
    split at h
    · rcases List.mem_append.mp h with h1 | h1
      · exact Or.inl h1
      · rcases List.mem_singleton.mp h1 with rfl
        right
        assumption
    · exact Or.inl h

/-- The comma attempt only adds complete records to the output. -/
theorem commaStep_sound {st : Pdf.TextState} {line : String} {t : PartialTrade}
    (h : t ∈ (Pdf.commaStep st line).trades) : t ∈ st.trades ∨ isTradeComplete t = true := by
  unfold Pdf.commaStep at h
  dsimp only at h
  split at h
  · split at h
    · rcases List.mem_append.mp h with h1 | h1
      · exact Or.inl h1
      · rcases List.mem_singleton.mp h1 with rfl
        right
        exact parseDelimitedLine_sound (by assumption)
    · exact Or.inl h
  · exact Or.inl h

/-- One line-loop iteration only adds complete records to the output. -/
theorem lineStep_sound {st : Pdf.TextState} {line : String} {t : PartialTrade}
    (h : t ∈ (Pdf.lineStep st line).trades) : t ∈ st.trades ∨ isTradeComplete t = true := by
  unfold Pdf.lineStep at h
  split at h
  · rcases List.mem_append.mp h with h1 | h1
    · exact Or.inl h1
    · rcases List.mem_singleton.mp h1 with rfl
      right
      exact pipeAttempt_sound (by assumption)
  · rcases commaStep_sound h with h1 | h1
    · rcases kvStep_sound h1 with h2 | h2
      · exact Or.inl h2
      · exact Or.inr h2
    · exact Or.inr h1

/-- The whole line loop only adds complete records to the output. -/
theorem foldl_lineStep_sound {t : PartialTrade} :
    ∀ (ls : List String) (st : Pdf.TextState),
      t ∈ (ls.foldl Pdf.lineStep st).trades → t ∈ st.trades ∨ isTradeComplete t = true := by
  intro ls
  induction ls with
  | nil =>
    intro st h
    exact Or.inl h
  | cons l ls ih =>
    intro st h
    rcases ih (Pdf.lineStep st l) h with h1 | h1
    · exact lineStep_sound h1
    · exact Or.inr h1

/-- The epilogue only adds a complete record. -/
theorem finishText_sound {st : Pdf.TextState} {t : PartialTrade}
    (h : t ∈ Pdf.finishText st) : t ∈ st.trades ∨ isTradeComplete t = true := by
  unfold Pdf.finishText at h
  split at h
  · split at h
    · rcases List.mem_append.mp h with h1 | h1
      · exact Or.inl h1
      · rcases List.mem_singleton.mp h1 with rfl
        right
        assumption
    · exact Or.inl h
  · exact Or.inl h

/-- Every record the free-text driver returns is complete. -/
theorem parseTextToTrades_sound {text : String} {t : PartialTrade}
    (h : t ∈ Pdf.parseTextToTrades text) : isTradeComplete t = true := by
  unfold Pdf.parseTextToTrades at h
  rcases finishText_sound h with h1 | h1
  · rcases foldl_lineStep_sound _ _ h1 with h2 | h2
    · cases h2
    · exact h2
  · exact h1

/-- Every record the CSV row extractor returns is complete. -/
theorem parseCSVRow_sound {vs : List String} {idx : List (String × ℕ)} {t : PartialTrade}
    (h : Csv.parseCSVRow vs idx = some t) : isTradeComplete t = true := by
  unfold Csv.parseCSVRow at h
  exact emitIfComplete_sound h

/-- Every record the CSV driver returns is complete. -/
theorem parseCsvTrades_sound {csvText : String} {t : PartialTrade}
    (h : t ∈ Csv.parseCsvTrades csvText) : isTradeComplete t = true := by
  unfold Csv.parseCsvTrades at h
  split at h
  · cases h
  · rcases List.mem_filterMap.mp h with ⟨l, _, hl⟩
    unfold Csv.rowStep at hl
    dsimp only at hl
    split at hl
    · cases hl
    · exact parseCSVRow_sound hl

/-- Every record the Excel row extractor returns is complete. -/
theorem parseExcelRow_sound {row : Excel.Row} {t : PartialTrade}
    (h : Excel.parseExcelRow row = some t) : isTradeComplete t = true := by
  unfold Excel.parseExcelRow at h
  exact emitIfComplete_sound h

/-- The sheet loop of the Excel driver only adds complete records. -/
theorem excel_foldl_sound {t : PartialTrade} :
    ∀ (sheets : List (List Excel.Row)) (acc : List PartialTrade),
      t ∈ sheets.foldl (fun trades rows => trades ++ rows.filterMap Excel.parseExcelRow) acc →
      t ∈ acc ∨ isTradeComplete t = true := by
  intro sheets
  induction sheets with
  | nil =>
    intro acc h
    exact Or.inl h
  | cons rows sheets ih =>
    intro acc h
    rcases ih _ h with h1 | h1
    · rcases List.mem_append.mp h1 with h2 | h2
      · exact Or.inl h2
      · rcases List.mem_filterMap.mp h2 with ⟨r, _, hr⟩
        exact Or.inr (parseExcelRow_sound hr)
    · exact Or.inr h1

/-- Every record the Excel driver returns is complete. -/
theorem parseExcelTrades_sound {sheets : List (List Excel.Row)} {t : PartialTrade}
    (h : t ∈ Excel.parseExcelTrades sheets) : isTradeComplete t = true := by
  unfold Excel.parseExcelTrades at h
  rcases excel_foldl_sound _ _ h with h1 | h1
  · cases h1
  · exact h1

end CompletenessLemmas

section RunRelations

/-- Two runs of the free-text line loop from the same state agree. -/
theorem textRun_det {ls : List String} {st : Pdf.TextState} {o1 o2 : List PartialTrade}
    (h1 : TextRun ls st o1) (h2 : TextRun ls st o2) : o1 = o2 := by
  induction h1 generalizing o2 with
  | done st =>
    cases h2
    rfl
  | step line rest st out h ih =>
    cases h2
    exact ih (by assumption)

/-- Two runs of the CSV data-row loop agree. -/
theorem csvRowsRun_det {header : List String} {idx : List (String × ℕ)} {ls : List String}
    {o1 o2 : List PartialTrade}
    (h1 : CsvRowsRun header idx ls o1) (h2 : CsvRowsRun header idx ls o2) : o1 = o2 := by
  induction h1 generalizing o2 with
  | nil =>
    cases h2
    rfl
  | skip line rest out hshort h ih =>
    cases h2 with
    | skip _ _ _ _ h2r => exact ih h2r
    | emit _ _ _ _ hlong _ _ => exact absurd hshort hlong
    | drop _ _ _ hlong _ _ => exact absurd hshort hlong
  | emit line rest t out hlong hsome h ih =>
    cases h2 with
    | skip _ _ _ hshort _ => exact absurd hshort hlong
    | emit _ _ _ _ _ hsome2 h2r =>
      rw [hsome] at hsome2
      cases hsome2
      rw [ih h2r]
    | drop _ _ _ _ hnone _ =>
      rw [hsome] at hnone
      cases hnone
  | drop line rest out hlong hnone h ih =>
    cases h2 with
    | skip _ _ _ hshort _ => exact absurd hshort hlong
    | emit _ _ _ _ _ hsome _ =>
      rw [hnone] at hsome
      cases hsome
    | drop _ _ _ _ _ h2r => exact ih h2r

/-- Two runs of the Excel row loop agree. -/
theorem excelRowsRun_det {rows : List Excel.Row} {o1 o2 : List PartialTrade}
    (h1 : ExcelRowsRun rows o1) (h2 : ExcelRowsRun rows o2) : o1 = o2 := by
  induction h1 generalizing o2 with
  | nil =>
    cases h2
    rfl
  | emit row rest t out hsome h ih =>
    cases h2 with
    | emit _ _ _ _ hsome2 h2r =>
      rw [hsome] at hsome2
      cases hsome2
      rw [ih h2r]
    | drop _ _ _ hnone _ =>
      rw [hsome] at hnone
      cases hnone
  | drop row rest out hnone h ih =>
    cases h2 with
    | emit _ _ _ _ hsome _ =>
      rw [hnone] at hsome
      cases hsome
    | drop _ _ _ _ h2r => exact ih h2r

/-- Two runs of the Excel sheet loop agree. -/
theorem excelSheetsRun_det {sheets : List (List Excel.Row)} {o1 o2 : List PartialTrade}
    (h1 : ExcelSheetsRun sheets o1) (h2 : ExcelSheetsRun sheets o2) : o1 = o2 := by
  induction h1 generalizing o2 with
  | nil =>
    cases h2
    rfl
  | sheet rows rest out1 out2 hr hs ih =>
    cases h2 with
    | sheet _ _ out1b out2b hrb hsb =>
      rw [excelRowsRun_det hr hrb, ih hsb]

/-- The free-text driver function realizes the relation from any state. -/
theorem textRun_total (ls : List String) (st : Pdf.TextState) :
    TextRun ls st (Pdf.finishText (ls.foldl Pdf.lineStep st)) := by
  induction ls generalizing st with
  | nil => exact TextRun.done st
  | cons l rest ih => exact TextRun.step l rest st _ (ih (Pdf.lineStep st l))

/-- The free-text driver's output is a run of the relation. -/
theorem parseTextToTrades_run (text : String) :
    TextRun (Pdf.textLines text) {} (Pdf.parseTextToTrades text) :=
  textRun_total (Pdf.textLines text) {}

/-- The CSV data-row loop function realizes the relation. -/
theorem csvRowsRun_total (header : List String) (idx : List (String × ℕ))
    (ls : List String) :
    CsvRowsRun header idx ls (ls.filterMap (Csv.rowStep header idx)) := by
  induction ls with
  | nil => exact CsvRowsRun.nil
  | cons l rest ih =>
    rw [List.filterMap_cons]
    rcases hstep : Csv.rowStep header idx l with _ | t
    · unfold Csv.rowStep at hstep
      dsimp only at hstep
      split at hstep
      · exact CsvRowsRun.skip l rest _ (by assumption) ih
      · exact CsvRowsRun.drop l rest _ (by assumption) hstep ih
    · unfold Csv.rowStep at hstep
      dsimp only at hstep
      split at hstep
      · cases hstep
      · exact CsvRowsRun.emit l rest t _ (by assumption) hstep ih

/-- The CSV driver's output is a run of the relation over its data lines. -/
theorem parseCsvTrades_run (csvText : String) (hd : String) (rest : List String)
    (h : Csv.csvLines csvText = hd :: rest) :
    CsvRowsRun (Csv.parseCSVLine hd) (Csv.mapColumnIndices (Csv.parseCSVLine hd)) rest
      (Csv.parseCsvTrades csvText) := by
  unfold Csv.parseCsvTrades
  rw [h]
  exact csvRowsRun_total _ _ rest

/-- The Excel row loop function realizes the relation. -/
theorem excelRowsRun_total (rows : List Excel.Row) :
    ExcelRowsRun rows (rows.filterMap Excel.parseExcelRow) := by
  induction rows with
  | nil => exact ExcelRowsRun.nil
  | cons r rest ih =>
    rw [List.filterMap_cons]
    rcases hstep : Excel.parseExcelRow r with _ | t
    · exact ExcelRowsRun.drop r rest _ hstep ih
    · exact ExcelRowsRun.emit r rest t _ hstep ih

/-- Shifting the Excel sheet fold's accumulator out as a prefix. -/
theorem excel_foldl_acc (sheets : List (List Excel.Row)) (acc : List PartialTrade) :
    sheets.foldl (fun trades rows => trades ++ rows.filterMap Excel.parseExcelRow) acc =
      acc ++ sheets.foldl (fun trades rows => trades ++ rows.filterMap Excel.parseExcelRow) [] := by
  induction sheets generalizing acc with
  | nil => simp
  | cons rows rest ih =>
    rw [List.foldl_cons, List.foldl_cons, ih (acc ++ rows.filterMap Excel.parseExcelRow),
      ih ([] ++ rows.filterMap Excel.parseExcelRow)]
    simp [List.append_assoc]

/-- The Excel driver's output on a nonempty workbook splits by its first sheet. -/
theorem parseExcelTrades_cons (rows : List Excel.Row) (rest : List (List Excel.Row)) :
    Excel.parseExcelTrades (rows :: rest) =
      rows.filterMap Excel.parseExcelRow ++ Excel.parseExcelTrades rest := by
  unfold Excel.parseExcelTrades
  rw [List.foldl_cons, excel_foldl_acc]
  simp

/-- The Excel driver's output is a run of the relation. -/
theorem parseExcelTrades_run (sheets : List (List Excel.Row)) :
    ExcelSheetsRun sheets (Excel.parseExcelTrades sheets) := by
  induction sheets with
  | nil => exact ExcelSheetsRun.nil
  | cons rows rest ih =>
    rw [parseExcelTrades_cons]
    exact ExcelSheetsRun.sheet rows rest _ _ (excelRowsRun_total rows) ih

end RunRelations

section TokenLemmas

/-- The numeric-disambiguation block never touches the direction field. -/
theorem numericAssign_direction (t : PartialTrade) (b : Bool) (n : JNum) :
    (Pdf.numericAssign t b n).direction = t.direction := by
  unfold Pdf.numericAssign
  dsimp only
  repeat' split
  all_goals rfl

/-- The date/time block never touches the direction field. -/
theorem timeAssign_direction (t : PartialTrade) (tok : String) :
    (Pdf.timeAssign t tok).direction = t.direction := by
  unfold Pdf.timeAssign
  repeat' split
  all_goals rfl

/-- The date/time block never touches the four numeric fields. -/
theorem timeAssign_numerics (t : PartialTrade) (tok : String) :
    (Pdf.timeAssign t tok).openPrice = t.openPrice ∧
      (Pdf.timeAssign t tok).closePrice = t.closePrice ∧
      (Pdf.timeAssign t tok).tradeAmount = t.tradeAmount ∧
      (Pdf.timeAssign t tok).profitAmount = t.profitAmount := by
  unfold Pdf.timeAssign
  repeat' split
  all_goals exact ⟨rfl, rfl, rfl, rfl⟩

end TokenLemmas

section ClaimTheoremsA

/-- C1 counterexample: the claim predicts that the three-line key-value run
emits exactly one record (with direction and currency defaulted) when the
third line completes the predicate; the code emits no record at all on
exactly that input. -/
theorem c1_counterexample :
    Pdf.parseTextToTrades "Asset: TSLA\nAmount: $200\nProfit: 15%" = [] := by decide

/-- C1 (amended): feeding the lines "Asset: TSLA", "Amount: $200",
"Profit: 15%" to `parseTextToTrades` yields no record.  The key-value path
tests completeness without applying the direction/currency defaults (those
exist only in the token classifier), so the accumulator ends holding asset
TSLA, tradeAmount 200 and profitAmount 15 but no direction, never satisfies
the completeness predicate, and is discarded at end of input. -/
theorem c1_kv_run_never_completes :
    Pdf.parseTextToTrades "Asset: TSLA\nAmount: $200\nProfit: 15%" = [] ∧
      (Pdf.textLines "Asset: TSLA\nAmount: $200\nProfit: 15%").foldl Pdf.lineStep {} =
        { trades := [],
          currentTrade := some { asset := some "TSLA", tradeAmount := some (JNum.num 200),
                                 profitAmount := some (JNum.num 15) } } :=
  ⟨by decide, by decide⟩

/-- C2 counterexample: the claim says all three line-shape attempts run on
every line regardless of earlier success.  On this text the first line emits
via the pipe attempt and the `continue` skips its key-value attempt (which
would have seeded the accumulator with a direction), so the code produces one
record while the spec-modelled run-all-three variant produces two. -/
theorem c2_counterexample :
    (Pdf.parseTextToTrades
        "call|#1001|AAPL|USD|85%|1500|120.50|119.00|12:30|13:45\nAsset: TSLA\nAmount: $200\nProfit: 15%").length = 1 ∧
      (Pdf.parseTextToTradesAllThree
        "call|#1001|AAPL|USD|85%|1500|120.50|119.00|12:30|13:45\nAsset: TSLA\nAmount: $200\nProfit: 15%").length = 2 :=
  ⟨by decide, by decide⟩

/-- C2 (amended): when the pipe attempt emits a record, the `continue` skips
the key-value and comma attempts for that line (the state change is exactly
the one appended record); when the pipe attempt does not emit, the key-value
and comma attempts BOTH run on the line, a key-value flush not suppressing
the comma attempt — so a single line can still contribute to two emitted
records, as in the final line of the concrete text here (key-value completes
the accumulator and the comma shape emits a second record). -/
theorem c2_pipe_skips_rest :
    (∀ (st : Pdf.TextState) (line : String) (t : PartialTrade),
        Pdf.pipeAttempt line = some t →
        Pdf.lineStep st line = { st with trades := st.trades ++ [t] }) ∧
      (∀ (st : Pdf.TextState) (line : String),
        Pdf.pipeAttempt line = none →
        Pdf.lineStep st line = Pdf.commaStep (Pdf.kvStep st line) line) ∧
      (Pdf.parseTextToTrades
        "Put: put\nAsset: TSLA\nAmount: $200\nProfit: 15%,call,#1,AAPL,2000,100.5,99.5,85%").length = 2 := by
  refine ⟨?_, ?_, by decide⟩
  · intro st line t h
    unfold Pdf.lineStep
    rw [h]
  · intro st line h
    unfold Pdf.lineStep
    rw [h]

/-- C2 witness: the amended theorem applied at a concrete non-pipe line. -/
theorem c2_witness :
    Pdf.lineStep {} "Asset: TSLA" = Pdf.commaStep (Pdf.kvStep {} "Asset: TSLA") "Asset: TSLA" :=
  c2_pipe_skips_rest.2.1 {} "Asset: TSLA" (by decide)

/-- C4: the ten-token pipe line classifies exactly as the claim lists:
direction call, orderNumber "#1001", asset AAPL, currency USD, profitAmount
85, tradeAmount 1500, openPrice 120.50, closePrice 119.00, openTime and
closeTime the two dates — both at the token-classifier level and through the
full driver, which emits exactly that one record. -/
theorem c4_pipe_line_classification :
    Pdf.parseDelimitedLine
        ["call", "#1001", "AAPL", "USD", "85%", "1500", "120.50", "119.00",
         "2024-01-01", "2024-01-02"] =
      some { direction := some Direction.call, orderNumber := some "#1001", expiryTime := none,
             asset := some "AAPL", openTime := some "2024-01-01", closeTime := some "2024-01-02",
             openPrice := some (JNum.num (mkRat 241 2)), closePrice := some (JNum.num 119),
             tradeAmount := some (JNum.num 1500), profitAmount := some (JNum.num 85),
             currency := some "USD" } ∧
      Pdf.parseTextToTrades "call|#1001|AAPL|USD|85%|1500|120.50|119.00|2024-01-01|2024-01-02" =
        [{ direction := some Direction.call, orderNumber := some "#1001", expiryTime := none,
           asset := some "AAPL", openTime := some "2024-01-01", closeTime := some "2024-01-02",
           openPrice := some (JNum.num (mkRat 241 2)), closePrice := some (JNum.num 119),
           tradeAmount := some (JNum.num 1500), profitAmount := some (JNum.num 85),
           currency := some "USD" }] :=
  ⟨by decide, by decide⟩

/-- C5 counterexample: the claim says a direction token writes only when the
field is unset, so the first of two direction tokens would win.  On the token
list beginning with "call" and ending with "put" the emitted record carries
direction put: the later token overwrote the earlier one. -/
theorem c5_counterexample :
    (Pdf.parseDelimitedLine ["call", "#1", "AAPL", "85%", "1500", "put"]).map
        (fun t => t.direction) = some (some Direction.put) := by decide

/-- C5 (amended): a token that is exactly (case-insensitively) "call" or
"put" sets direction unconditionally — the branch has no unset guard — and
every other branch leaves direction untouched, so the LAST direction token of
a sequence determines the emitted record's direction. -/
theorem c5_direction_overwritten (t : PartialTrade) (tok : String) :
    (Pdf.processToken t tok).direction =
      (if jsLower tok = "call" then some Direction.call
       else if jsLower tok = "put" then some Direction.put
       else t.direction) := by
  unfold Pdf.processToken
  dsimp only
  by_cases h1 : jsLower tok = "call"
  · simp [h1]
  · by_cases h2 : jsLower tok = "put"
    · simp [h1, h2]
    · simp only [h1, h2, if_false, if_neg, reduceIte]
      repeat' split
      all_goals first
        | rfl
        | exact numericAssign_direction _ _ _
        | exact timeAssign_direction _ _

/-- C6 counterexample: the claim says a `%` token is assigned to profitAmount
only when that field was never previously assigned, so after "0%" set it to
0 a later "5%" would fall through to the price branches.  Instead the guard
is JS truthiness: on this token list the emitted record has profitAmount 5
(overwritten) and openPrice still unset. -/
theorem c6_counterexample :
    (Pdf.parseDelimitedLine ["call", "#1", "AAPL", "0%", "5%", "1500"]).map
        (fun t => (t.profitAmount, t.openPrice)) =
      some (some (JNum.num 5), none) := by decide

/-- C6 (amended): the `%` branch guard is `!trade.profitAmount` (JS
truthiness), so a `%` token is assigned whenever profitAmount is unset, zero
or NaN; in particular after profitAmount = 0 a later `%` token overwrites it
and touches nothing else, while after a NONZERO profitAmount a `%` token
does fall through to the price branches. -/
theorem c6_percent_guard_is_truthiness :
    (∀ (t : PartialTrade) (n : JNum), numTruthy t.profitAmount = false →
        Pdf.numericAssign t true n = { t with profitAmount := some n }) ∧
      (∀ t : PartialTrade, t.profitAmount = some (JNum.num 0) →
        Pdf.processToken t "5%" = { t with profitAmount := some (JNum.num 5) }) ∧
      (∀ (t : PartialTrade) (q : ℚ), t.profitAmount = some (JNum.num q) → q ≠ 0 →
        t.openPrice = none →
        Pdf.processToken t "5%" = { t with openPrice := some (JNum.num 5) }) := by
  refine ⟨?_, ?_, ?_⟩
  · intro t n h
    unfold Pdf.numericAssign
    dsimp only
    rw [h]
    simp
  · intro t h
    unfold Pdf.processToken
    dsimp only
    have hc : ¬ (jsLower "5%" = "call") := by decide
    have hp : ¬ (jsLower "5%" = "put") := by decide
    have ho : Pdf.orderRe (jsLower "5%") = false := by decide
    have ha : Pdf.assetRe "5%" = false := by decide
    have hcu : Pdf.currencyRe (jsLower "5%") = false := by decide
    have hn : Pdf.numericRe "5%" = true := by decide
    have hpc : strContains (jsLower "5%") "%" = true := by decide
    have hv : Pdf.parseCurrency "5%" = JNum.num 5 := by decide
    rw [if_neg hc, if_neg hp, ho, ha, hcu, hn, hpc, hv]
    simp only [Bool.false_and, Bool.false_eq_true, if_false, reduceIte]
    unfold Pdf.numericAssign
    dsimp only
    rw [h]
    simp [numTruthy]
  · intro t q h hq hop
    unfold Pdf.processToken
    dsimp only
    have hc : ¬ (jsLower "5%" = "call") := by decide
    have hp : ¬ (jsLower "5%" = "put") := by decide
    have ho : Pdf.orderRe (jsLower "5%") = false := by decide
    have ha : Pdf.assetRe "5%" = false := by decide
    have hcu : Pdf.currencyRe (jsLower "5%") = false := by decide
    have hn : Pdf.numericRe "5%" = true := by decide
    have hpc : strContains (jsLower "5%") "%" = true := by decide
    have hv : Pdf.parseCurrency "5%" = JNum.num 5 := by decide
    rw [if_neg hc, if_neg hp, ho, ha, hcu, hn, hpc, hv]
    simp only [Bool.false_and, Bool.false_eq_true, if_false, reduceIte]
    unfold Pdf.numericAssign
    dsimp only
    rw [h, hop]
    simp [numTruthy, hq]
    norm_num

/-- C6 witness: the amended theorem applied at a record holding
profitAmount 0 and at one holding a nonzero profitAmount. -/
theorem c6_witness :
    Pdf.processToken { profitAmount := some (JNum.num 0) } "5%" =
        { profitAmount := some (JNum.num 5) } ∧
      Pdf.processToken { profitAmount := some (JNum.num 85) } "5%" =
        { profitAmount := some (JNum.num 85), openPrice := some (JNum.num 5) } :=
  ⟨c6_percent_guard_is_truthiness.2.1 { profitAmount := some (JNum.num 0) } rfl,
   c6_percent_guard_is_truthiness.2.2 { profitAmount := some (JNum.num 85) } 85 rfl
     (by norm_num) rfl⟩

end ClaimTheoremsA

section ClaimTheoremsB

/-- C3: no driver ever emits a record whose tradeAmount is 0: every emission
point is guarded by the completeness predicate, whose truthiness test rejects
a zero (as well as an absent or NaN) tradeAmount. -/
theorem c3_zero_amount_never_emitted :
    (∀ (text : String) (t : PartialTrade),
        t ∈ Pdf.parseTextToTrades text → t.tradeAmount ≠ some (JNum.num 0)) ∧
      (∀ (csvText : String) (t : PartialTrade),
        t ∈ Csv.parseCsvTrades csvText → t.tradeAmount ≠ some (JNum.num 0)) ∧
      (∀ (sheets : List (List Excel.Row)) (t : PartialTrade),
        t ∈ Excel.parseExcelTrades sheets → t.tradeAmount ≠ some (JNum.num 0)) :=
  ⟨fun _ _ h => complete_amount_nonzero (parseTextToTrades_sound h),
   fun _ _ h => complete_amount_nonzero (parseCsvTrades_sound h),
   fun _ _ h => complete_amount_nonzero (parseExcelTrades_sound h)⟩

/-- C3 witness: the theorem applied to the one record a concrete pipe line
produces. -/
theorem c3_witness :
    ({ direction := some Direction.call, orderNumber := some "#7", expiryTime := none,
       asset := some "MSFT", openTime := some "12:30", closeTime := some "13:30",
       openPrice := some (JNum.num (mkRat 21 2)), closePrice := some (JNum.num (mkRat 23 2)),
       tradeAmount := some (JNum.num 2500), profitAmount := some (JNum.num 40),
       currency := some "USD" } : PartialTrade).tradeAmount ≠ some (JNum.num 0) :=
  c3_zero_amount_never_emitted.1 "call|#7|MSFT|USD|40%|2500|10.5|11.5|12:30|13:30" _ (by decide)

/-- C7: a CSV data row whose parsed field count is smaller than the header's
is skipped whole: removing it from the line list leaves the driver's entire
output unchanged, so none of its values reach any record. -/
theorem c7_short_rows_skipped (t1 t2 hd s : String) (pre post : List String)
    (h1 : Csv.csvLines t1 = hd :: (pre ++ s :: post))
    (h2 : Csv.csvLines t2 = hd :: (pre ++ post))
    (hshort : (Csv.parseCSVLine s).length < (Csv.parseCSVLine hd).length) :
    Csv.parseCsvTrades t1 = Csv.parseCsvTrades t2 := by
  unfold Csv.parseCsvTrades
  rw [h1, h2]
  dsimp only
  have hnone : Csv.rowStep (Csv.parseCSVLine hd) (Csv.mapColumnIndices (Csv.parseCSVLine hd)) s
      = none := by
    unfold Csv.rowStep
    dsimp only
    rw [if_pos hshort]
  rw [List.filterMap_append, List.filterMap_append, List.filterMap_cons, hnone]

/-- C7 witness: the theorem applied at a concrete file with one short row. -/
theorem c7_witness :
    Csv.parseCsvTrades "amount,profit,asset,direction\n5\n1500,85,AAPL,call" =
      Csv.parseCsvTrades "amount,profit,asset,direction\n1500,85,AAPL,call" :=
  c7_short_rows_skipped _ _ "amount,profit,asset,direction" "5" [] ["1500,85,AAPL,call"]
    (by decide) (by decide) (by decide)

/-- C8: the tabular numeric coercer is total and yields 0 whenever the
stripped value does not parse as a number, while the free-text token path
leaves all four numeric fields untouched on a token that fails the numeric
regex (it is ignored, never coerced to 0). -/
theorem c8_malformed_numeric_handling :
    (∀ s : String, jsParseFloat (Csv.strippedNumeric s) = JNum.nan → Csv.parseNumber s = 0) ∧
      (∀ (t : PartialTrade) (tok : String), Pdf.numericRe tok = false →
        (Pdf.processToken t tok).openPrice = t.openPrice ∧
          (Pdf.processToken t tok).closePrice = t.closePrice ∧
          (Pdf.processToken t tok).tradeAmount = t.tradeAmount ∧
          (Pdf.processToken t tok).profitAmount = t.profitAmount) := by
  constructor
  · intro s h
    unfold Csv.parseNumber
    rw [h]
  · intro t tok h
    unfold Pdf.processToken
    dsimp only
    simp only [h, Bool.false_eq_true, if_false, reduceIte]
    repeat' split
    all_goals first
      | exact ⟨rfl, rfl, rfl, rfl⟩
      | exact timeAssign_numerics _ _

/-- C8 witness: the theorem applied at the unparsable cell "abc" and the
malformed numeric token "12.3.4". -/
theorem c8_witness :
    Csv.parseNumber "abc" = 0 ∧
      (Pdf.processToken {} "12.3.4").profitAmount = ({} : PartialTrade).profitAmount :=
  ⟨c8_malformed_numeric_handling.1 "abc" (by decide),
   (c8_malformed_numeric_handling.2 {} "12.3.4" (by decide)).2.2.2⟩

/-- C9: each driver, modelled as its run relation, is deterministic — two
runs over the same input from the same start state produce the same output
sequence — and each driver function is a run of its relation, so re-running
any driver on the same input reproduces the identical record sequence. -/
theorem c9_drivers_deterministic :
    (∀ (ls : List String) (st : Pdf.TextState) (o1 o2 : List PartialTrade),
        TextRun ls st o1 → TextRun ls st o2 → o1 = o2) ∧
      (∀ (header : List String) (idx : List (String × ℕ)) (ls : List String)
          (o1 o2 : List PartialTrade),
        CsvRowsRun header idx ls o1 → CsvRowsRun header idx ls o2 → o1 = o2) ∧
      (∀ (sheets : List (List Excel.Row)) (o1 o2 : List PartialTrade),
        ExcelSheetsRun sheets o1 → ExcelSheetsRun sheets o2 → o1 = o2) ∧
      (∀ text : String, TextRun (Pdf.textLines text) {} (Pdf.parseTextToTrades text)) ∧
      (∀ (csvText hd : String) (rest : List String), Csv.csvLines csvText = hd :: rest →
        CsvRowsRun (Csv.parseCSVLine hd) (Csv.mapColumnIndices (Csv.parseCSVLine hd)) rest
          (Csv.parseCsvTrades csvText)) ∧
      (∀ sheets : List (List Excel.Row), ExcelSheetsRun sheets (Excel.parseExcelTrades sheets)) :=
  ⟨fun _ _ _ _ h1 h2 => textRun_det h1 h2,
   fun _ _ _ _ _ h1 h2 => csvRowsRun_det h1 h2,
   fun _ _ _ h1 h2 => excelSheetsRun_det h1 h2,
   parseTextToTrades_run,
   fun csvText hd rest h => parseCsvTrades_run csvText hd rest h,
   parseExcelTrades_run⟩

/-- C9 witness: determinism applied to two runs of the free-text driver on a
concrete input, both obtained from the adequacy conjunct. -/
theorem c9_witness :
    Pdf.parseTextToTrades "Profit: 1%" = Pdf.parseTextToTrades "Profit: 1%" :=
  c9_drivers_deterministic.1 (Pdf.textLines "Profit: 1%") {} _ _
    (c9_drivers_deterministic.2.2.2.1 "Profit: 1%")
    (c9_drivers_deterministic.2.2.2.1 "Profit: 1%")

/-- C10: in the numeric-disambiguation block, a `%`-free value of exactly
1000 satisfies neither the strict `> 1000` tradeAmount guard nor the strict
`< 1000` price guards, and a value of 0 fails every guard as well, so the
partial record is returned unchanged; the same holds through the whole token
step for the tokens "$1000" and "$0", which reach the numeric branch. -/
theorem c10_gap_at_1000_and_0 :
    (∀ t : PartialTrade, Pdf.numericAssign t false (JNum.num 1000) = t) ∧
      (∀ t : PartialTrade, Pdf.numericAssign t false (JNum.num 0) = t) ∧
      (∀ t : PartialTrade, Pdf.processToken t "$1000" = t) ∧
      (∀ t : PartialTrade, Pdf.processToken t "$0" = t) := by
  have gap1000 : ∀ t : PartialTrade, Pdf.numericAssign t false (JNum.num 1000) = t := by
    intro t
    unfold Pdf.numericAssign
    dsimp only
    norm_num
  have gap0 : ∀ t : PartialTrade, Pdf.numericAssign t false (JNum.num 0) = t := by
    intro t
    unfold Pdf.numericAssign
    dsimp only
    norm_num
  refine ⟨gap1000, gap0, ?_, ?_⟩
  · intro t
    unfold Pdf.processToken
    dsimp only
    have hc : ¬ (jsLower "$1000" = "call") := by decide
    have hp : ¬ (jsLower "$1000" = "put") := by decide
    have ho : Pdf.orderRe (jsLower "$1000") = false := by decide
    have ha : Pdf.assetRe "$1000" = false := by decide
    have hcu : Pdf.currencyRe (jsLower "$1000") = false := by decide
    have hn : Pdf.numericRe "$1000" = true := by decide
    have hpc : strContains (jsLower "$1000") "%" = false := by decide
    have hv : Pdf.parseCurrency "$1000" = JNum.num 1000 := by decide
    rw [if_neg hc, if_neg hp, ho, ha, hcu, hn, hpc, hv]
    simp only [Bool.false_and, Bool.false_eq_true, if_false, reduceIte]
    exact gap1000 t
  · intro t
    unfold Pdf.processToken
    dsimp only
    have hc : ¬ (jsLower "$0" = "call") := by decide
    have hp : ¬ (jsLower "$0" = "put") := by decide
    have ho : Pdf.orderRe (jsLower "$0") = false := by decide
    have ha : Pdf.assetRe "$0" = false := by decide
    have hcu : Pdf.currencyRe (jsLower "$0") = false := by decide
    have hn : Pdf.numericRe "$0" = true := by decide
    have hpc : strContains (jsLower "$0") "%" = false := by decide
    have hv : Pdf.parseCurrency "$0" = JNum.num 0 := by decide
    rw [if_neg hc, if_neg hp, ho, ha, hcu, hn, hpc, hv]
    simp only [Bool.false_and, Bool.false_eq_true, if_false, reduceIte]
    exact gap0 t

end ClaimTheoremsB
